import Mathlib

/-
Verification of `share/ipld/nmt.go`: the IPLD adapter for Namespaced Merkle
Tree (NMT) nodes in celestia-node.  The Go file classifies raw blocks into
inner/leaf NMT nodes by byte length, exposes DAG-node behaviour (links,
path resolution, copy, tree enumeration), converts namespaced hashes to and
from CIDs, and translates data-square coordinates into a randomized
row-root or column-root CID.

Byte buffers are modelled as `List Nat`.  A Go panic is modelled as
`Option.none`; fallible Go functions returning `(..., error)` are modelled
with `Except`.
-/

set_option autoImplicit false

namespace CelestiaIpld

/-- Modelled from the spec: `appconsts.NamespaceSize`, imported from the
external celestia-app package (not under src/).  The spec fixes
`NamespaceSize = 8`. -/
def NamespaceSize : Nat := 8

/-- Go stdlib `crypto/sha256.Size`: the size of a SHA-256 digest in bytes.
The spec fixes `DigestSize = 32`. -/
def sha256Size : Nat := 32

/-- `nmtHashSize` is the size of a digest created by an NMT in bytes:
`2*appconsts.NamespaceSize + sha256.Size`. -/
def nmtHashSize : Nat := 2 * NamespaceSize + sha256Size

/-- `nmtCodec` is the codec used for leaf and inner nodes of a Namespaced
Merkle Tree. -/
def nmtCodec : Nat := 0x7700

/-- `sha256Namespace8Flagged` is the multihash code used to hash blocks that
contain an NMT node (inner and leaf nodes). -/
def sha256Namespace8Flagged : Nat := 0x7701

/-- `cidPrefixSize` is the size of the prepended buffer of the CID encoding
for NamespacedSha256 (multihash function-code varint + length varint). -/
def cidPrefixSize : Nat := 4

/-- Fuelled core of unsigned LEB128 (Go `encoding/binary.PutUvarint`):
emit 7 bits at a time, low group first, setting the continuation bit on
every byte but the last. -/
def putUvarintAux : Nat → Nat → List Nat
  | 0, _ => []
  | fuel + 1, n => if n < 128 then [n] else (n % 128 + 128) :: putUvarintAux fuel (n / 128)

/-- Unsigned varint encoding of `n` (Go `encoding/binary.PutUvarint`).
`n + 1` units of fuel always suffice since the quotient shrinks. -/
def putUvarint (n : Nat) : List Nat := putUvarintAux (n + 1) n

/-- Go `mh.Encode(buf, code)` from go-multihash: a multihash is
`varint(code) ++ varint(len(buf)) ++ buf`. -/
def mhEncode (buf : List Nat) (code : Nat) : List Nat :=
  putUvarint code ++ putUvarint buf.length ++ buf

/-- A CID (go-cid): version, codec tag and the multihash bytes.  go-cid
stores the varint concatenation `varint(version) ++ varint(codec) ++ mhash`;
since varint encoding is injective the structural form is equivalent, and
`Cid.Hash` returns the multihash portion exactly as `cid.Hash()` does. -/
structure Cid where
  version : Nat
  codec : Nat
  mhash : List Nat
  deriving DecidableEq, Repr

/-- go-cid `cid.Hash()`: the multihash portion of the CID. -/
def Cid.Hash (c : Cid) : List Nat := c.mhash

/-- go-cid `cid.NewCidV1(codec, mhash)`. -/
def NewCidV1 (codec : Nat) (mhash : List Nat) : Cid :=
  { version := 1, codec := codec, mhash := mhash }

/-- Error returned by `CidFromNamespacedSha256` when the hash length is
wrong: "invalid namespaced hash length, got: %v, want: %v". -/
inductive EncodeError where
  | invalidHashLength (got want : Nat)
  deriving DecidableEq, Repr

/-- `CidFromNamespacedSha256` uses a hash from an nmt tree to create a CID:
it rejects hashes whose length differs from `nmtHashSize`, otherwise wraps
the hash in the `sha256Namespace8Flagged` multihash and the `nmtCodec`
codec as a CIDv1.  (The `mh.Encode` error branch in the Go code is dead:
go-multihash `Encode` never fails.) -/
def CidFromNamespacedSha256 (namespacedHash : List Nat) : Except EncodeError Cid :=
  if namespacedHash.length ≠ nmtHashSize then
    .error (.invalidHashLength namespacedHash.length nmtHashSize)
  else
    .ok (NewCidV1 nmtCodec (mhEncode namespacedHash sha256Namespace8Flagged))

/-- `MustCidFromNamespacedSha256` panics when `CidFromNamespacedSha256`
errors; the panic is modelled as `none`. -/
def MustCidFromNamespacedSha256 (hash : List Nat) : Option Cid :=
  match CidFromNamespacedSha256 hash with
  | .error _ => none
  | .ok c => some c

/-- `NamespacedSha256FromCID` derives the namespaced hash from the given
CID: `cid.Hash()[cidPrefixSize:]`. -/
def NamespacedSha256FromCID (c : Cid) : List Nat :=
  (Cid.Hash c).drop cidPrefixSize

/-- A raw block (go-block-format `blocks.Block`): a CID together with the
raw data bytes (`RawData`). -/
structure Block where
  cid : Cid
  rawData : List Nat
  deriving DecidableEq, Repr

/-- The two IPLD node shapes produced by `decodeBlock`: `nmtNode` (inner)
and `nmtLeafNode` (leaf), each wrapping the underlying block. -/
inductive IpldNode where
  | inner (b : Block)
  | leaf (b : Block)
  deriving DecidableEq, Repr

/-- The `decodeBlock` error: "ipld: wrong sized data carried in block". -/
inductive BlockError where
  | malformedBlock
  deriving DecidableEq, Repr

/-- `decodeBlock`: classify a block by the length of its raw data.
`shareSize` stands for the external constant `consts.ShareSize` (not under
src/); the Go `switch` statement forbids duplicate case values, so
`nmtHashSize*2 ≠ NamespaceSize + shareSize` is a compile-time guarantee
there, mirrored here by stating theorems under that hypothesis. -/
def decodeBlock (shareSize : Nat) (block : Block) : Except BlockError IpldNode :=
  let innerNodeSize := nmtHashSize * 2
  let leafNodeSize := NamespaceSize + shareSize
  if block.rawData.length = innerNodeSize then .ok (.inner block)
  else if block.rawData.length = leafNodeSize then .ok (.leaf block)
  else .error .malformedBlock

/-- `nmtNode.left`: the first `nmtHashSize` bytes of the raw data. -/
def nmtNode.left (n : Block) : List Nat := n.rawData.take nmtHashSize

/-- `nmtNode.right`: the raw data from offset `nmtHashSize` on. -/
def nmtNode.right (n : Block) : List Nat := n.rawData.drop nmtHashSize

/-- Errors surfaced by `Resolve` on the two node shapes: "invalid path for
inner node", "invalid path for leaf node", or a CID-construction error
forwarded from `CidFromNamespacedSha256`. -/
inductive ResolveError where
  | invalidPathInner
  | invalidPathLeaf
  | cidErr (e : EncodeError)
  deriving DecidableEq, Repr

/-- `nmtNode.Resolve`: switches on `path[0]` — `"0"` links to the left
child, `"1"` to the right child, anything else is an invalid path.  The Go
code indexes `path[0]` unconditionally, so the empty path panics
(out-of-range index), modelled as `none`. -/
def nmtNode.Resolve (n : Block) (path : List String) :
    Option (Except ResolveError (Cid × List String)) :=
  match path with
  | [] => none
  | p :: rest =>
    if p = "0" then
      some (match CidFromNamespacedSha256 (nmtNode.left n) with
        | .error e => .error (.cidErr e)
        | .ok c => .ok (c, rest))
    else if p = "1" then
      some (match CidFromNamespacedSha256 (nmtNode.right n) with
        | .error e => .error (.cidErr e)
        | .ok c => .ok (c, rest))
    else
      some (.error .invalidPathInner)

/-- `nmtNode.Tree`: panics ("proper tree not yet implemented", modelled as
`none`) unless `path == ""` and `depth == -1`, in which case it returns
`["0", "1"]`. -/
def nmtNode.Tree (_n : Block) (path : String) (depth : Int) : Option (List String) :=
  if path ≠ "" ∨ depth ≠ -1 then none else some ["0", "1"]

/-- `nmtNode.Links`: CIDs of the left and right children, via
`MustCidFromNamespacedSha256` (panics, i.e. `none`, on malformed halves). -/
def nmtNode.Links (n : Block) : Option (List Cid) :=
  match MustCidFromNamespacedSha256 (nmtNode.left n),
      MustCidFromNamespacedSha256 (nmtNode.right n) with
  | some l, some r => some [l, r]
  | _, _ => none

/-- `nmtLeafNode.Resolve`: unconditionally "invalid path for leaf node",
without inspecting any path segment. -/
def nmtLeafNode.Resolve (_l : Block) (_path : List String) :
    Option (Except ResolveError (Cid × List String)) :=
  some (.error .invalidPathLeaf)

/-- `nmtLeafNode.Tree`: always returns `nil`. -/
def nmtLeafNode.Tree (_l : Block) (_path : String) (_depth : Int) : List String := []

/-- `nmtLeafNode.Links`: always returns `nil`. -/
def nmtLeafNode.Links (_l : Block) : List Cid := []

/-- Result of the external block-fetch capability
(`blockservice.BlockGetter.GetBlock`): a block, the distinguished
`ipld.ErrNotFound` (carrying the missing CID), or a generic fetch error. -/
inductive FetchResult where
  | found (b : Block)
  | notFound (c : Cid)
  | fetchFailed
  deriving DecidableEq, Repr

/-- Errors out of `GetNode`: `ErrNotFound` propagated verbatim, a generic
fetch error returned as-is, or the `decodeBlock` classification error. -/
inductive GetNodeError where
  | notFound (c : Cid)
  | fetchFailed
  | malformedBlock
  deriving DecidableEq, Repr

/-- `GetNode`: fetch the block for `root` via the getter; `ErrNotFound` is
surfaced as such, any other fetch error is returned unchanged, and a
fetched block is classified by `decodeBlock`. -/
def GetNode (shareSize : Nat) (bGetter : Cid → FetchResult) (root : Cid) :
    Except GetNodeError IpldNode :=
  match bGetter root with
  | .notFound c => .error (.notFound c)
  | .fetchFailed => .error .fetchFailed
  | .found b =>
    match decodeBlock shareSize b with
    | .error .malformedBlock => .error .malformedBlock
    | .ok n => .ok n

/-- The external `da.DataAvailabilityHeader`: row and column root digests
of the data square (field `RowsRoots` is the Go spelling). -/
structure DataAvailabilityHeader where
  RowsRoots : List (List Nat)
  ColumnRoots : List (List Nat)
  deriving DecidableEq, Repr

/-- `Translate` transforms square coordinates into an NMT root CID plus
the complementary coordinate.  `randIntn2` is the draw of `rand.Intn(2)`,
made an explicit argument; out-of-range indexing and the
`MustCidFromNamespacedSha256` panic are modelled as `none`. -/
def Translate (dah : DataAvailabilityHeader) (row col : Nat) (randIntn2 : Nat) :
    Option (Cid × Nat) :=
  if randIntn2 = 0 then
    match dah.ColumnRoots.get? col with
    | none => none
    | some h =>
      match MustCidFromNamespacedSha256 h with
      | none => none
      | some c => some (c, row)
  else
    match dah.RowsRoots.get? row with
    | none => none
    | some h =>
      match MustCidFromNamespacedSha256 h with
      | none => none
      | some c => some (c, col)

/-- A store of byte buffers addressed by allocation index, used to model
Go slice aliasing for `Copy`: `heap` maps addresses to buffer contents and
`next` is the next fresh address. -/
structure Mem where
  heap : Nat → List Nat
  next : Nat

/-- Read the buffer at address `a`. -/
def Mem.read (m : Mem) (a : Nat) : List Nat := m.heap a

/-- Overwrite the buffer at address `a` (a Go in-place slice mutation). -/
def Mem.write (m : Mem) (a : Nat) (v : List Nat) : Mem :=
  { m with heap := fun x => if x = a then v else m.heap x }

/-- Allocate a fresh buffer holding `v` (a Go `make` + `copy`), returning
the new store and the fresh address. -/
def Mem.alloc (m : Mem) (v : List Nat) : Mem × Nat :=
  ({ heap := fun x => if x = m.next then v else m.heap x, next := m.next + 1 }, m.next)

/-- A block whose raw data lives in a `Mem` buffer: the CID plus the
buffer's address. -/
structure BlockRef where
  cid : Cid
  addr : Nat
  deriving DecidableEq, Repr

/-- `newNMTNode(id, data)`: wraps `data` and `id` into a block
(`blocks.NewBlockWithCid` stores the given slice; its hash re-check runs
only in debug builds and its error branch is otherwise dead). -/
def newNMTNode (m : Mem) (id : Cid) (data : List Nat) : Mem × BlockRef :=
  let alloced := m.alloc data
  (alloced.1, { cid := id, addr := alloced.2 })

/-- `nmtNode.Copy`: `d := make([]byte, len(RawData)); copy(d, RawData)` —
a freshly allocated duplicate of the raw data — then
`newNMTNode(n.Cid(), d)`. -/
def nmtNode.Copy (m : Mem) (n : BlockRef) : Mem × BlockRef :=
  let d := m.read n.addr
  newNMTNode m n.cid d

/-- Example CID used by witnesses. -/
def cidEx : Cid := NewCidV1 nmtCodec []

/-- Example block used by witnesses. -/
def blockEx : Block := { cid := cidEx, rawData := [] }

/-- Example block getter used by witnesses: every CID is missing. -/
def bGetterEx : Cid → FetchResult := fun _ => FetchResult.notFound cidEx

/-- Example memory for the copy witness: one allocated buffer `[5]` at
address 0. -/
def memEx : Mem := { heap := fun _ => [5], next := 1 }

/-- Example block reference for the copy witness: address 0. -/
def refEx : BlockRef := { cid := cidEx, addr := 0 }

theorem putUvarint_code : putUvarint sha256Namespace8Flagged = [129, 238, 1] := by decide

theorem putUvarint_nmtHashSize : putUvarint nmtHashSize = [48] := by decide

/-- C1: for every byte sequence `h` of length exactly `nmtHashSize = 48`,
`CidFromNamespacedSha256 h` succeeds (returning the CID that wraps
`mhEncode h sha256Namespace8Flagged`) and `NamespacedSha256FromCID` of that
CID returns `h`: the payload bytes after the fixed 4-byte multihash prefix
equal the original namespaced hash. -/
theorem cid_roundtrip (h : List Nat) (hl : h.length = nmtHashSize) :
    CidFromNamespacedSha256 h =
      .ok (NewCidV1 nmtCodec (mhEncode h sha256Namespace8Flagged)) ∧
    NamespacedSha256FromCID (NewCidV1 nmtCodec (mhEncode h sha256Namespace8Flagged)) = h := by
  constructor
  · simp [CidFromNamespacedSha256, hl]
  · simp [NamespacedSha256FromCID, Cid.Hash, NewCidV1, mhEncode, hl,
      putUvarint_code, putUvarint_nmtHashSize, cidPrefixSize]

/-- C1 witness: the round-trip at the all-zero 48-byte hash. -/
theorem cid_roundtrip_witness :
    NamespacedSha256FromCID
        (NewCidV1 nmtCodec (mhEncode (List.replicate 48 0) sha256Namespace8Flagged)) =
      List.replicate 48 0 :=
  (cid_roundtrip (List.replicate 48 0) (by decide)).2

/-- C2: classification by `decodeBlock` succeeds iff the buffer length is
one of the two fixed sizes — length `nmtHashSize * 2` yields an inner
node, length `NamespaceSize + shareSize` yields a leaf node, and any other
length fails with the malformed-block error.  The hypothesis that the two
sizes differ is the configuration guarantee the Go `switch` enforces at
compile time (duplicate case values do not compile). -/
theorem decodeBlock_classifies (shareSize : Nat)
    (hne : nmtHashSize * 2 ≠ NamespaceSize + shareSize) (b : Block) :
    (b.rawData.length = nmtHashSize * 2 → decodeBlock shareSize b = .ok (.inner b)) ∧
    (b.rawData.length = NamespaceSize + shareSize →
      decodeBlock shareSize b = .ok (.leaf b)) ∧
    (b.rawData.length ≠ nmtHashSize * 2 → b.rawData.length ≠ NamespaceSize + shareSize →
      decodeBlock shareSize b = .error .malformedBlock) := by
  refine ⟨fun h1 => ?_, fun h2 => ?_, fun h1 h2 => ?_⟩
  · simp [decodeBlock, h1]
  · have hni : b.rawData.length ≠ nmtHashSize * 2 := by omega
    have hsym : NamespaceSize + shareSize ≠ nmtHashSize * 2 := fun e => hne e.symm
    simp [decodeBlock, h2, hni, hsym]
  · simp [decodeBlock, h1, h2]

/-- C2 witness: with `shareSize = 256` a 96-byte buffer classifies as an
inner node. -/
theorem decodeBlock_classifies_witness :
    decodeBlock 256 { cid := cidEx, rawData := List.replicate 96 0 } =
      .ok (.inner { cid := cidEx, rawData := List.replicate 96 0 }) :=
  (decodeBlock_classifies 256 (by decide)
    { cid := cidEx, rawData := List.replicate 96 0 }).1 (by decide)

/-- C3: for an inner node built from `left ++ right` (each half of length
`nmtHashSize`), resolving `"0" :: rest` yields the CID encoding the left
half paired with `rest`, resolving `"1" :: rest` yields the CID encoding
the right half paired with `rest`, and any other first segment fails with
the inner-node invalid-path error. -/
theorem inner_resolve (id : Cid) (l r : List Nat)
    (hl : l.length = nmtHashSize) (_hr : r.length = nmtHashSize) (rest : List String) :
    (∀ c, CidFromNamespacedSha256 l = .ok c →
      nmtNode.Resolve { cid := id, rawData := l ++ r } ("0" :: rest) =
        some (.ok (c, rest))) ∧
    (∀ c, CidFromNamespacedSha256 r = .ok c →
      nmtNode.Resolve { cid := id, rawData := l ++ r } ("1" :: rest) =
        some (.ok (c, rest))) ∧
    (∀ s, s ≠ "0" → s ≠ "1" →
      nmtNode.Resolve { cid := id, rawData := l ++ r } (s :: rest) =
        some (.error .invalidPathInner)) := by
  have hL : nmtNode.left { cid := id, rawData := l ++ r } = l := by
    simp [nmtNode.left, ← hl]
  have hR : nmtNode.right { cid := id, rawData := l ++ r } = r := by
    simp [nmtNode.right, ← hl]
  refine ⟨fun c hc => ?_, fun c hc => ?_, fun s h0 h1 => ?_⟩
  · simp [nmtNode.Resolve, hL, hc]
  · simp [nmtNode.Resolve, hR, hc]
  · simp [nmtNode.Resolve, h0, h1]

/-- C3 witness: on the concrete inner node of all-zero left half and
all-one right half, resolving `["2"]` fails with the invalid-path error. -/
theorem inner_resolve_witness :
    nmtNode.Resolve
        { cid := cidEx, rawData := List.replicate 48 0 ++ List.replicate 48 1 } ["2"] =
      some (.error .invalidPathInner) :=
  (inner_resolve cidEx (List.replicate 48 0) (List.replicate 48 1)
    (by decide) (by decide) []).2.2 "2" (by decide) (by decide)

/-- C4: `CidFromNamespacedSha256` fails with the invalid-hash-length error
(naming got and wanted lengths) exactly when the input length differs from
`nmtHashSize`, and on a `nmtHashSize`-length input returns a version-1 CID
carrying the `nmtCodec` codec tag and a multihash whose leading bytes are
the fixed `sha256Namespace8Flagged` function tag. -/
theorem cidFrom_length_spec (h : List Nat) :
    (h.length ≠ nmtHashSize →
      CidFromNamespacedSha256 h = .error (.invalidHashLength h.length nmtHashSize)) ∧
    (h.length = nmtHashSize →
      CidFromNamespacedSha256 h =
        .ok (NewCidV1 nmtCodec (mhEncode h sha256Namespace8Flagged)) ∧
      (NewCidV1 nmtCodec (mhEncode h sha256Namespace8Flagged)).version = 1 ∧
      (NewCidV1 nmtCodec (mhEncode h sha256Namespace8Flagged)).codec = nmtCodec ∧
      (mhEncode h sha256Namespace8Flagged).take 3 = putUvarint sha256Namespace8Flagged) := by
  refine ⟨fun hne => ?_, fun heq => ⟨?_, rfl, rfl, ?_⟩⟩
  · simp [CidFromNamespacedSha256, hne]
  · simp [CidFromNamespacedSha256, heq]
  · simp [mhEncode, putUvarint_code]

/-- C4 witness: the empty hash is rejected with got 0 / want 48, and the
all-zero 48-byte hash is accepted. -/
theorem cidFrom_length_spec_witness :
    CidFromNamespacedSha256 [] = .error (.invalidHashLength 0 nmtHashSize) ∧
    CidFromNamespacedSha256 (List.replicate 48 0) =
      .ok (NewCidV1 nmtCodec (mhEncode (List.replicate 48 0) sha256Namespace8Flagged)) :=
  ⟨(cidFrom_length_spec []).1 (by decide),
    ((cidFrom_length_spec (List.replicate 48 0)).2 (by decide)).1⟩

/-- C5: resolving any non-empty path on a leaf node fails with the
leaf-node invalid-path error, and a leaf node's link list is empty. -/
theorem leaf_resolve_links (l : Block) :
    (∀ path, path ≠ ([] : List String) →
      nmtLeafNode.Resolve l path = some (.error .invalidPathLeaf)) ∧
    nmtLeafNode.Links l = [] :=
  ⟨fun _ _ => rfl, rfl⟩

/-- C5 witness: resolving `["0"]` on a concrete leaf node fails with the
leaf-node invalid-path error. -/
theorem leaf_resolve_links_witness :
    nmtLeafNode.Resolve blockEx ["0"] = some (.error .invalidPathLeaf) :=
  (leaf_resolve_links blockEx).1 ["0"] (by decide)

/-- C6: with in-range indices, well-formed roots and a binary draw,
`Translate` returns exactly one of two results: the column-root CID paired
with `row` when the draw is 0, and the row-root CID paired with `col`
otherwise. -/
theorem translate_spec (dah : DataAvailabilityHeader) (row col r : Nat)
    (rowRoot colRoot : List Nat)
    (hrow : dah.RowsRoots[row]? = some rowRoot)
    (hcol : dah.ColumnRoots[col]? = some colRoot)
    (hlr : rowRoot.length = nmtHashSize) (hlc : colRoot.length = nmtHashSize)
    (_hr2 : r < 2) :
    Translate dah row col r =
      if r = 0 then
        some (NewCidV1 nmtCodec (mhEncode colRoot sha256Namespace8Flagged), row)
      else
        some (NewCidV1 nmtCodec (mhEncode rowRoot sha256Namespace8Flagged), col) := by
  by_cases h0 : r = 0
  · simp [Translate, h0, hcol,
      MustCidFromNamespacedSha256, CidFromNamespacedSha256, hlc]
  · simp [Translate, h0, hrow,
      MustCidFromNamespacedSha256, CidFromNamespacedSha256, hlr]

/-- C6 witness: on a 1×1 header, draw 0 returns the column root CID paired
with the row index. -/
theorem translate_spec_witness :
    Translate
        { RowsRoots := [List.replicate 48 0], ColumnRoots := [List.replicate 48 1] }
        0 0 0 =
      some (NewCidV1 nmtCodec
        (mhEncode (List.replicate 48 1) sha256Namespace8Flagged), 0) := by
  simpa using translate_spec
    { RowsRoots := [List.replicate 48 0], ColumnRoots := [List.replicate 48 1] }
    0 0 0 (List.replicate 48 0) (List.replicate 48 1)
    (by decide) (by decide) (by decide) (by decide) (by decide)

/-- C7: `Copy` on a valid block reference keeps the CID, duplicates the
buffer contents at a fresh address distinct from the original, and
mutating the copy's buffer leaves the original buffer unchanged. -/
theorem copy_independent (m : Mem) (n : BlockRef) (hv : n.addr < m.next) :
    ((nmtNode.Copy m n).2).cid = n.cid ∧
    ((nmtNode.Copy m n).1).read ((nmtNode.Copy m n).2).addr = m.read n.addr ∧
    ((nmtNode.Copy m n).2).addr ≠ n.addr ∧
    (∀ v, (((nmtNode.Copy m n).1).write ((nmtNode.Copy m n).2).addr v).read n.addr =
      m.read n.addr) := by
  have hne : n.addr ≠ m.next := Nat.ne_of_lt hv
  refine ⟨rfl, ?_, fun e => hne e.symm, fun v => ?_⟩
  · simp [nmtNode.Copy, newNMTNode, Mem.alloc, Mem.read]
  · simp [nmtNode.Copy, newNMTNode, Mem.alloc, Mem.read, Mem.write, hne]

/-- C7 witness: on the concrete one-buffer memory, writing `[7]` into the
copy's buffer leaves the original buffer's contents intact. -/
theorem copy_independent_witness :
    (((nmtNode.Copy memEx refEx).1).write ((nmtNode.Copy memEx refEx).2).addr [7]).read
        refEx.addr =
      memEx.read refEx.addr :=
  (copy_independent memEx refEx (by decide)).2.2.2 [7]

/-- C8: `GetNode` delegates to the block getter; a not-found result is
surfaced as the distinguished not-found error (distinct by construction
from the generic fetch error and the malformed-block error), a generic
fetch failure is returned as such, and a fetched block is classified by
`decodeBlock`, whose result (success or malformed-block error) is
propagated. -/
theorem getNode_spec (shareSize : Nat) (bGetter : Cid → FetchResult) (root : Cid) :
    (∀ c, bGetter root = .notFound c →
      GetNode shareSize bGetter root = .error (.notFound c)) ∧
    (bGetter root = .fetchFailed →
      GetNode shareSize bGetter root = .error .fetchFailed) ∧
    (∀ b, bGetter root = .found b →
      (∀ n, decodeBlock shareSize b = .ok n → GetNode shareSize bGetter root = .ok n) ∧
      (decodeBlock shareSize b = .error .malformedBlock →
        GetNode shareSize bGetter root = .error .malformedBlock)) ∧
    (∀ c, GetNodeError.notFound c ≠ .fetchFailed ∧
      GetNodeError.notFound c ≠ .malformedBlock) := by
  refine ⟨fun c hc => ?_, fun hf => ?_, fun b hb => ⟨fun n hn => ?_, fun hm => ?_⟩,
    fun c => ⟨by simp, by simp⟩⟩
  · simp [GetNode, hc]
  · simp [GetNode, hf]
  · simp [GetNode, hb, hn]
  · simp [GetNode, hb, hm]

/-- C8 witness: when the getter reports not-found, `GetNode` surfaces the
not-found error for that CID. -/
theorem getNode_spec_witness :
    GetNode 256 bGetterEx cidEx = .error (.notFound cidEx) :=
  (getNode_spec 256 bGetterEx cidEx).1 cidEx rfl

/-- C9: the inner-node child enumeration returns `["0", "1"]` exactly for
the no-op query (empty path, depth -1) and panics (modelled `none`) for
every other path/depth combination, while the leaf-node enumeration always
returns the empty sequence. -/
theorem tree_spec (n : Block) :
    nmtNode.Tree n "" (-1) = some ["0", "1"] ∧
    (∀ path depth, path ≠ "" ∨ depth ≠ -1 → nmtNode.Tree n path depth = none) ∧
    (∀ l path depth, nmtLeafNode.Tree l path depth = []) := by
  refine ⟨?_, fun path depth h => ?_, fun _ _ _ => rfl⟩
  · simp [nmtNode.Tree]
  · simp [nmtNode.Tree, h]

/-- C9 witness: a non-empty path makes the inner-node enumeration panic
(`none`). -/
theorem tree_spec_witness : nmtNode.Tree blockEx "0" (-1) = none :=
  (tree_spec blockEx).2.1 "0" (-1) (Or.inl (by decide))

/-- C10: resolving the empty path on an inner node is a panic (`none`,
the unconditional `path[0]` read is out of range), not an invalid-path
error, while a leaf node returns its invalid-path error even on the empty
path. -/
theorem resolve_empty_path (n l : Block) :
    nmtNode.Resolve n [] = none ∧
    nmtLeafNode.Resolve l [] = some (.error .invalidPathLeaf) :=
  ⟨rfl, rfl⟩

end CelestiaIpld
